import Mathlib

/-!
Shallow embedding of two source files of the pypy repository:

* `rpython/rlib/buffer.py` — the buffer protocol support classes
  (`Buffer`, `RawBuffer`, `GCBuffer`, `SubBuffer`), namespace `Rbuf` below.
* `pypy/module/cpyext/cparser.py` — the C declaration type space
  (`CTypeSpace`, `DelayedStruct` and the `convert_type` lowering
  algorithm), namespace `Cparser` below.

Python integers are embedded as `Int`/`Nat`; Python dictionaries as
association lists (`alist_find` returns the binding that a dict lookup
would return, i.e. the most recent assignment wins); Python exceptions as
`Except` values whose error component carries the state at the moment the
exception escapes (Python exceptions do not roll mutations back, so a
theorem asserting that the carried state equals the entry state is a real
atomicity statement).  The unbounded recursion of `convert_type` is
embedded with an explicit fuel parameter: every recursive call consumes
one unit, so `.ok` at a concrete finite fuel is a termination witness.
-/

namespace Rbuf

/-- Abstract base buffer: embeds an object of a concrete leaf subclass of
`Buffer` (e.g. `ByteBuffer`, `StringBuffer`).  `len` is what its
`getlength()` returns, `get` its (unchecked) `getitem`, `tread` its
`typed_read(TP, byte_offset)` (abstract, since the leaf classes realize it
with external `llop` primitives). -/
structure BaseBuf where
  len : Int
  get : Int → Char
  readonly : Bool
  tread : String → Int → Int

/-- A buffer object: either a leaf buffer or a `SubBuffer` instance with
its three attributes `buffer`, `offset`, `size` plus the `readonly` flag
set by `SubBuffer.__init__`. -/
inductive Buffer where
  | base (b : BaseBuf)
  | sub (buffer : Buffer) (offset : Int) (size : Int) (readonly : Bool)

/-- The `readonly` attribute of a buffer object. -/
def Buffer.readonly : Buffer → Bool
  | .base b => b.readonly
  | .sub _ _ _ r => r

/-- `getlength`: for `SubBuffer` this is the source's
`at_most = self.buffer.getlength() - self.offset;
if 0 <= self.size <= at_most: return self.size
elif at_most >= 0: return at_most
else: return 0`. -/
def Buffer.getlength : Buffer → Int
  | .base b => b.len
  | .sub buffer offset size _ =>
      let at_most := buffer.getlength - offset
      if 0 ≤ size ∧ size ≤ at_most then size
      else if at_most ≥ 0 then at_most
      else 0

/-- `Buffer.__len__`: `res = self.getlength(); assert res >= 0; return res`.
The failed assertion is embedded as `none`. -/
def Buffer.pyLen (b : Buffer) : Option Int :=
  let res := b.getlength
  if res ≥ 0 then some res else none

/-- `getitem`: `SubBuffer.getitem(index)` is
`self.buffer.getitem(self.offset + index)` (no bounds checks). -/
def Buffer.getitem : Buffer → Int → Char
  | .base b, index => b.get index
  | .sub buffer offset _ _, index => buffer.getitem (offset + index)

/-- `typed_read`: `SubBuffer.typed_read(TP, byte_offset)` is
`self.buffer.typed_read(TP, byte_offset + self.offset)`. -/
def Buffer.typed_read : Buffer → String → Int → Int
  | .base b, TP, byte_offset => b.tread TP byte_offset
  | .sub buffer offset _ _, TP, byte_offset =>
      buffer.typed_read TP (byte_offset + offset)

/-- `SubBuffer.__init__(self, buffer, offset, size)`: sets
`self.readonly = buffer.readonly`; if `buffer` is itself a `SubBuffer` it
is flattened: `at_most = buffer.getlength() - offset;
if size > at_most or size < 0: (at_most = 0 if at_most < 0); size = at_most;
offset += buffer.offset; buffer = buffer.buffer`. -/
def mkSubBuffer (buffer : Buffer) (offset : Int) (size : Int) : Buffer :=
  let readonly := buffer.readonly
  match buffer with
  | .sub inner ioff isize iro =>
      let at_most := (Buffer.sub inner ioff isize iro).getlength - offset
      let size := if size > at_most ∨ size < 0 then
                    (if at_most < 0 then 0 else at_most)
                  else size
      .sub inner (offset + ioff) size readonly
  | b => .sub b offset size readonly

/-- `CannotWrite` from buffer.py. -/
inductive WriteErr where
  | cannotWrite
  deriving DecidableEq

/-- Raw memory, addressed by integers (one cell per `raw_store` target). -/
def Mem := Int → Int

/-- Model of `llop.raw_store(lltype.Void, ptr, byte_offset, value)`:
store `value` at address `ptr + byte_offset`.  (`llop` lives in the
external rtyper layer; only the addressing is modelled.) -/
def rawStore (mem : Mem) (ptr byte_offset value : Int) : Mem :=
  fun a => if a = ptr + byte_offset then value else mem a

/-- Model of `llop.gc_store_indexed(lltype.Void, lldata, byte_offset,
value, scale_factor, base_ofs)`: store at
`lldata + base_ofs + byte_offset * scale_factor`. -/
def gcStoreIndexed (mem : Mem) (lldata byte_offset value scale_factor base_ofs : Int) :
    Mem :=
  fun a => if a = lldata + base_ofs + byte_offset * scale_factor then value else mem a

/-- The attributes of a `RawBuffer` that `typed_write` uses:
`readonly` and what `get_raw_address()` returns. -/
structure RawBufData where
  readonly : Bool
  raw_address : Int

/-- `RawBuffer.typed_write(TP, byte_offset, value)`:
`if self.readonly: raise CannotWrite` and only then
`ptr = self.get_raw_address(); value = lltype.cast_primitive(TP, value);
llop.raw_store(lltype.Void, ptr, byte_offset, value)`.
`castPrim` embeds the external `lltype.cast_primitive`.  The error carries
the untouched memory. -/
def RawBuffer.typed_write (castPrim : String → Int → Int) (b : RawBufData)
    (mem : Mem) (TP : String) (byte_offset value : Int) :
    Except (WriteErr × Mem) Mem :=
  if b.readonly then .error (.cannotWrite, mem)
  else
    let ptr := b.raw_address
    let value := castPrim TP value
    .ok (rawStore mem ptr byte_offset value)

/-- The attributes of a `GCBuffer` that `typed_write` uses: `readonly`,
`_get_gc_data()` and `_get_gc_data_offset()` (both abstract handles). -/
structure GCBufData where
  readonly : Bool
  gc_data : Int
  gc_data_offset : Int

/-- `GCBuffer.typed_write(TP, byte_offset, value)`:
`if self.readonly: raise CannotWrite` and only then
`lldata = self._get_gc_data(); base_ofs = self._get_gc_data_offset();
scale_factor = llmemory.sizeof(lltype.Char);
value = lltype.cast_primitive(TP, value);
llop.gc_store_indexed(lltype.Void, lldata, byte_offset, value,
scale_factor, base_ofs)`.  `sizeof(Char)` is 1. -/
def GCBuffer.typed_write (castPrim : String → Int → Int) (b : GCBufData)
    (mem : Mem) (TP : String) (byte_offset value : Int) :
    Except (WriteErr × Mem) Mem :=
  if b.readonly then .error (.cannotWrite, mem)
  else
    let lldata := b.gc_data
    let base_ofs := b.gc_data_offset
    let scale_factor : Int := 1
    let value := castPrim TP value
    .ok (gcStoreIndexed mem lldata byte_offset value scale_factor base_ofs)

end Rbuf

namespace Cparser

/-- Generic association-list lookup embedding a Python dict lookup: the
most recent assignment (cons) wins. -/
def alist_find {κ α : Type} [DecidableEq κ] : List (κ × α) → κ → Option α
  | [], _ => none
  | (k', v) :: rest, k => if k' = k then some v else alist_find rest k

/-- The `const` qualifier bit `model.Q_CONST` of the frontend's type
model (cffi's `model.Q_CONST = 0x01`). -/
def Q_CONST : Nat := 1

/-- Abstract type nodes produced by the external frontend (`cmodel`):
`PrimitiveType`, `StructType`, `PointerType`, `FunctionPtrType`,
`VoidType`, `ArrayType`, `DefinedType`.  Struct nodes are mutable Python
objects forming possibly cyclic graphs, so they are embedded by identity:
`structT id` refers to entry `id` of a `StructEnv`.  `unknown` stands for
any node kind outside this list (the final `else` of `convert_type`). -/
inductive CType where
  | prim (name : String)
  | structT (id : Nat)
  | pointer (quals : Nat) (totype : CType)
  | funcPtr (ellipsis : Bool) (args : List CType) (result : CType)
  | void
  | array (item : CType) (length : Nat)
  | defined (quals : Nat) (realtype : CType)
  | unknown

/-- The attributes of a `model.StructType` node: `name`, `fldnames`,
`fldtypes` (the latter is `None` for a forward-declared struct). -/
structure StructDecl where
  name : String
  fldnames : List String
  fldtypes : Option (List CType)

/-- The struct-node heap: which `StructDecl` each struct node identity
carries. -/
def StructEnv := Nat → StructDecl

/-- Concrete lowered type descriptors (`lltype`/`rffi` values), plus
`delayedStruct id` for the `DelayedStruct` placeholder object of struct
node `id` (Python passes these objects around exactly like types), and
`forwardRef id` for that placeholder's `.TYPE`, the
`lltype.ForwardReference()` handle created by `new_struct`. -/
inductive LLType where
  | prim (name : String)
  | filetype
  | void
  | voidp
  | forwardRef (id : Nat)
  | ptr (pointee : LLType)
  | funcType (args : List LLType) (res : LLType)
  | fixedArray (item : LLType) (length : Nat)
  | arrayNoLength (item : LLType) (render_as_const : Bool)
  | delayedStruct (id : Nat)

/-- `isinstance(TO, lltype.ContainerType)`: struct forward references,
the opaque `FILE` struct, function types and arrays are containers;
scalars, `Void` and pointers are not, and a `DelayedStruct` placeholder
object is not an lltype at all. -/
def LLType.isContainer : LLType → Bool
  | .filetype => true
  | .forwardRef _ => true
  | .funcType _ _ => true
  | .fixedArray _ _ => true
  | .arrayNoLength _ _ => true
  | _ => false

/-- The `CNAME_TO_LLTYPE` registry built at import time.  Modelled from
the spec for the external `rffi.TYPES`/`rfficache` contents (§3
NativeTypeRegistry, §8 primitive reference set): every supported
primitive spelling maps to its concrete scalar descriptor, and `FILE`
maps to the opaque file-stream struct `FILEP.TO`. -/
def CNAME_TO_LLTYPE : List (String × LLType) :=
  [("char", .prim "char"), ("double", .prim "double"),
   ("long double", .prim "long double"), ("float", .prim "float"),
   ("FILE", .filetype),
   ("signed char", .prim "signed char"), ("unsigned char", .prim "unsigned char"),
   ("short", .prim "short"), ("unsigned short", .prim "unsigned short"),
   ("int", .prim "int"), ("unsigned int", .prim "unsigned int"),
   ("long", .prim "long"), ("unsigned long", .prim "unsigned long"),
   ("long long", .prim "long long"), ("unsigned long long", .prim "unsigned long long"),
   ("size_t", .prim "size_t"), ("ssize_t", .prim "ssize_t"),
   ("wchar_t", .prim "wchar_t")]

/-- `cname_to_lltype(name)`: `CNAME_TO_LLTYPE[name]`; a missing key is a
`KeyError`. -/
def cname_to_lltype (name : String) : Option LLType :=
  alist_find CNAME_TO_LLTYPE name

/-- The mutable attributes of a `DelayedStruct` object: `struct_name`,
`type_name` (initially `None`), `fields` (initially `None`); its `TYPE`
attribute is the forward reference `LLType.forwardRef id` where `id` is
the struct node it was created for. -/
structure DelayedData where
  struct_name : String
  type_name : Option String
  fields : Option (List (String × LLType))

/-- A declaration value as stored in the frontend's `_declarations`
table: the node of a typedef declaration, or the captured value of a
macro declaration. -/
inductive DeclObj where
  | ctype (t : CType)
  | macroVal (v : Int)

/-- One entry of the frontend's `_declarations` table, as
`configure_types` iterates it: the prefixed name, the `(obj, quals)`
pair, and whether `obj` is in `ctx._included_declarations` (i.e. came
from a merged-in unit). -/
structure Decl where
  name : String
  obj : DeclObj
  quals : Nat
  included : Bool

/-- A pending entry of `_config_entries`: the `rffi_platform.Struct`
request (`type_name`, field list) keyed to the forward reference
`forwardRef tyid` it must backfill (the dict value `struct.TYPE`). -/
structure ConfigEntry where
  type_name : String
  fields : Option (List (String × LLType))
  tyid : Nat

/-- A concrete struct layout as returned by the platform-probe oracle
`rffi_platform.configure_entries` for one request: the probed size,
alignment and per-field byte offsets of the realized struct type. -/
structure Layout where
  size : Nat
  alignment : Nat
  fieldofs : List (String × Nat)

/-- Errors: Python exception classes escaping the embedded code
(`AssertionError`, `NotImplementedError`, `KeyError`, `ValueError`, a
probe failure from `rffi_platform`), plus `outOfFuel` marking exhaustion
of the explicit recursion-depth budget. -/
inductive Err where
  | assertionError
  | notImplementedError
  | keyError
  | valueError
  | probeError
  | outOfFuel
  deriving DecidableEq

/-- The mutable state of a `CTypeSpace` instance: `definitions`,
`macros`, the struct cache `structs` (keyed by struct node identity),
the `DelayedStruct` object heap `dstructs`, `_config_entries` (insertion
ordered), `_handled`, `_cdecl_type_cache`, and `resolved` recording which
forward references have been `become`-backfilled with which layout. -/
structure CTS where
  definitions : List (String × LLType)
  macros : List (String × DeclObj)
  structs : List (Nat × LLType)
  dstructs : List (Nat × DelayedData)
  config_entries : List ConfigEntry
  handled : List String
  cdecl_cache : List (String × LLType)
  resolved : List (Nat × Layout)

/-- A `CTypeSpace` as `__init__` builds it with no arguments: every
table empty. -/
def emptyCTS : CTS :=
  ⟨[], [], [], [], [], [], [], []⟩

/-- In-place mutation `struct.fields = ...` of the `DelayedStruct`
object for node `id`. -/
def setFields (l : List (Nat × DelayedData)) (id : Nat)
    (flds : List (String × LLType)) : List (Nat × DelayedData) :=
  l.map fun p => if p.1 = id then (p.1, { p.2 with fields := some flds }) else p

/-- In-place mutation `tp.type_name = name` of the `DelayedStruct`
object for node `id`. -/
def setTypeName (st : CTS) (id : Nat) (name : String) : CTS :=
  { st with dstructs :=
      st.dstructs.map fun p =>
        if p.1 = id then (p.1, { p.2 with type_name := some name }) else p }

/-- The tail of the `PointerType` branch of `convert_type`, after the
`Void` test and the `DelayedStruct` unwrap produced `TO`:
`if isinstance(TO, lltype.ContainerType): return lltype.Ptr(TO)`, else
`lltype.Ptr(lltype.Array(TO, hints={nolength, render_as_const}))` when
`obj.quals & model.Q_CONST`, else `rffi.CArrayPtr(TO)` (a pointer to a
plain no-length array). -/
def pointer_conv (pquals : Nat) (TO : LLType) : LLType :=
  if TO.isContainer then .ptr TO
  else if Nat.land pquals Q_CONST ≠ 0 then .ptr (.arrayNoLength TO true)
  else .ptr (.arrayNoLength TO false)

mutual
/-- `CTypeSpace.convert_type(self, obj, quals=0)`: dispatch on the node
kind.  `DefinedType` unwraps to `(obj.realtype, obj.quals)`;
`PrimitiveType` looks up `cname_to_lltype`; `StructType` returns the
struct-cache entry if present, else delegates to `new_struct`;
`PointerType` lowers the pointee then applies the `Void` check, the
`DelayedStruct`→`.TYPE` unwrap and `pointer_conv`; `FunctionPtrType`
raises `NotImplementedError` on `obj.ellipsis` *before* lowering any
argument or the result, else lowers arguments then the result into
`lltype.Ptr(lltype.FuncType(args, res))`; `VoidType` gives `lltype.Void`;
`ArrayType` gives `rffi.CFixedArray(item, length)`; anything else raises
`NotImplementedError`.  `fuel` bounds the recursion depth; each call
consumes one unit. -/
def convert_type (fuel : Nat) (env : StructEnv) (st : CTS) (obj : CType)
    (quals : Nat) : Except (Err × CTS) (LLType × CTS) :=
  match fuel with
  | 0 => .error (.outOfFuel, st)
  | f + 1 =>
    match obj with
    | .defined q realtype => convert_type f env st realtype q
    | .prim name =>
        match cname_to_lltype name with
        | some t => .ok (t, st)
        | none => .error (.keyError, st)
    | .structT id =>
        match alist_find st.structs id with
        | some v => .ok (v, st)
        | none => new_struct f env st id
    | .pointer pquals totype =>
        match convert_type f env st totype 0 with
        | .error e => .error e
        | .ok (TO, st1) =>
          match TO with
          | .void => .ok (.voidp, st1)
          | .delayedStruct id => .ok (pointer_conv pquals (.forwardRef id), st1)
          | t => .ok (pointer_conv pquals t, st1)
    | .funcPtr ellipsis args result =>
        if ellipsis then .error (.notImplementedError, st)
        else
          match convert_args f env st args with
          | .error e => .error e
          | .ok (largs, st1) =>
            match convert_type f env st1 result 0 with
            | .error e => .error e
            | .ok (lres, st2) => .ok (.ptr (.funcType largs lres), st2)
    | .void => .ok (.void, st)
    | .array item length =>
        match convert_type f env st item 0 with
        | .error e => .error e
        | .ok (litem, st1) => .ok (.fixedArray litem length, st1)
    | .unknown => .error (.notImplementedError, st)
termination_by fuel

/-- `CTypeSpace.new_struct(self, obj)`: the `_IO_FILE` special case maps
straight to `cname_to_lltype('FILE')` without touching any cache;
otherwise a fresh `DelayedStruct(obj.name, None, lltype.ForwardReference())`
is created and cached in `self.structs[obj]` *before* any field is
lowered, then, when `obj.fldtypes is not None`,
`struct.fields = zip(obj.fldnames, [convert_field(f) for f in obj.fldtypes])`. -/
def new_struct (fuel : Nat) (env : StructEnv) (st : CTS) (id : Nat) :
    Except (Err × CTS) (LLType × CTS) :=
  match fuel with
  | 0 => .error (.outOfFuel, st)
  | f + 1 =>
    let d := env id
    if d.name = "_IO_FILE" then
      match cname_to_lltype "FILE" with
      | some t => .ok (t, st)
      | none => .error (.keyError, st)
    else
      let st1 : CTS :=
        { st with structs := (id, .delayedStruct id) :: st.structs,
                  dstructs := (id, ⟨d.name, none, none⟩) :: st.dstructs }
      match d.fldtypes with
      | none => .ok (.delayedStruct id, st1)
      | some fldtypes =>
        match convert_fields f env st1 fldtypes with
        | .error e => .error e
        | .ok (ltys, st2) =>
          .ok (.delayedStruct id,
               { st2 with dstructs := setFields st2.dstructs id (List.zip d.fldnames ltys) })
termination_by fuel

/-- `CTypeSpace.convert_field(self, obj)`: `convert_type(obj)`, then a
`DelayedStruct` result is unwrapped to its `.TYPE` forward reference. -/
def convert_field (fuel : Nat) (env : StructEnv) (st : CTS) (obj : CType) :
    Except (Err × CTS) (LLType × CTS) :=
  match fuel with
  | 0 => .error (.outOfFuel, st)
  | f + 1 =>
    match convert_type f env st obj 0 with
    | .error e => .error e
    | .ok (tp, st1) =>
      match tp with
      | .delayedStruct id => .ok (.forwardRef id, st1)
      | t => .ok (t, st1)
termination_by fuel

/-- The list comprehension `[self.convert_field(field) for field in
obj.fldtypes]` of `new_struct`, threading the mutable state left to
right. -/
def convert_fields (fuel : Nat) (env : StructEnv) (st : CTS) :
    List CType → Except (Err × CTS) (List LLType × CTS)
  | [] => .ok ([], st)
  | o :: os =>
    match fuel with
    | 0 => .error (.outOfFuel, st)
    | f + 1 =>
      match convert_field f env st o with
      | .error e => .error e
      | .ok (t, st1) =>
        match convert_fields f env st1 os with
        | .error e => .error e
        | .ok (ts, st2) => .ok (t :: ts, st2)
termination_by fuel

/-- The list comprehension `[self.convert_type(arg) for arg in obj.args]`
of the `FunctionPtrType` branch, threading the state left to right. -/
def convert_args (fuel : Nat) (env : StructEnv) (st : CTS) :
    List CType → Except (Err × CTS) (List LLType × CTS)
  | [] => .ok ([], st)
  | o :: os =>
    match fuel with
    | 0 => .error (.outOfFuel, st)
    | f + 1 =>
      match convert_type f env st o 0 with
      | .error e => .error e
      | .ok (t, st1) =>
        match convert_args f env st1 os with
        | .error e => .error e
        | .ok (ts, st2) => .ok (t :: ts, st2)
termination_by fuel
end

/-- `DelayedStruct.get_type_name(self)`: the declared `type_name` if set,
else `'struct %s' % struct_name` unless the structural name is the
anonymous marker (starts with `$`), which raises `ValueError`. -/
def get_type_name (d : DelayedData) : Except Err String :=
  match d.type_name with
  | some tn => .ok tn
  | none =>
      if ¬ d.struct_name.startsWith "$" then .ok ("struct " ++ d.struct_name)
      else .error .valueError

/-- `CTypeSpace.realize_struct(self, struct)`: build the
`rffi_platform.Struct(type_name, struct.fields)` request, append it to
`_config_entries` keyed to `struct.TYPE` (the forward reference of node
`id`), and return `struct.TYPE`.  The `struct` argument is the
`DelayedStruct` object of node `id`, read from the object heap. -/
def realize_struct (st : CTS) (id : Nat) : Except (Err × CTS) (LLType × CTS) :=
  match alist_find st.dstructs id with
  | none => .error (.keyError, st)
  | some d =>
    match get_type_name d with
    | .error e => .error (e, st)
    | .ok tn =>
      .ok (.forwardRef id,
           { st with config_entries := st.config_entries ++ [⟨tn, d.fields, id⟩] })

/-- `obj.realtype` as used by `add_typedef`'s line
`self.structs[obj.realtype] = tp`: typedef declarations are `DefinedType`
nodes wrapping the real type.  Only a struct-node real type produces a
cache key that any later `convert_type` lookup can hit; a non-struct real
type would be a dict key never looked up again, embedded here as `none`
(no observable binding). -/
def realtypeStructId : CType → Option Nat
  | .defined _ (.structT id) => some id
  | _ => none

/-- `CTypeSpace.add_typedef(self, name, obj, quals)`:
`assert name not in self.definitions` (the failure leaves the state
untouched — the assert is the first statement); `tp = convert_type(obj,
quals)`; if `tp` is a `DelayedStruct`: set `tp.type_name = name` when
still unset, `tp = realize_struct(tp)`, `self.structs[obj.realtype] = tp`;
finally `self.definitions[name] = tp`. -/
def add_typedef (fuel : Nat) (env : StructEnv) (st : CTS) (name : String)
    (obj : CType) (quals : Nat) : Except (Err × CTS) (Unit × CTS) :=
  if (alist_find st.definitions name).isSome then .error (.assertionError, st)
  else
    match convert_type fuel env st obj quals with
    | .error e => .error e
    | .ok (tp, st1) =>
      match tp with
      | .delayedStruct id =>
        let st2 :=
          match alist_find st1.dstructs id with
          | some d =>
              match d.type_name with
              | none => setTypeName st1 id name
              | some _ => st1
          | none => st1
        match realize_struct st2 id with
        | .error e => .error e
        | .ok (TY, st3) =>
          let st4 :=
            match realtypeStructId obj with
            | some sid => { st3 with structs := (sid, TY) :: st3.structs }
            | none => st3
          .ok ((), { st4 with definitions := (name, TY) :: st4.definitions })
      | t => .ok ((), { st1 with definitions := (name, t) :: st1.definitions })

/-- `CTypeSpace.add_macro(self, name, value)`:
`assert name not in self.macros; self.macros[name] = value`. -/
def add_macro (st : CTS) (name : String) (value : DeclObj) :
    Except (Err × CTS) (Unit × CTS) :=
  if (alist_find st.macros name).isSome then .error (.assertionError, st)
  else .ok ((), { st with macros := (name, value) :: st.macros })

/-- Modelled from the spec: `lltype.ForwardReference.become(TYPE)` — the
forward-reference handle is backfilled with the concrete probed layout,
"a one-time, irreversible mutation" (§4.3 step 4), so a second `become`
on the same handle is an error.  (`lltype` is external to the excerpted
source.)  The `del TYPE._hints['eci']` tweak on the probed type touches
only toolchain metadata and is not modelled. -/
def become (st : CTS) (id : Nat) (ly : Layout) : Except (Err × CTS) (Unit × CTS) :=
  if (alist_find st.resolved id).isSome then .error (.assertionError, st)
  else .ok ((), { st with resolved := (id, ly) :: st.resolved })

/-- The backfill loop of `configure_types`:
`for entry, TYPE in izip(self._config_entries, result):
self._config_entries[entry].become(TYPE)` over the zipped
(entry, probed layout) pairs. -/
def backfill (st : CTS) : List (ConfigEntry × Layout) → Except (Err × CTS) (Unit × CTS)
  | [] => .ok ((), st)
  | (e, ly) :: rest =>
    match become st e.tyid ly with
    | .error err => .error err
    | .ok (_, st1) => backfill st1 rest

/-- The routing trace of one configuration pass: which stripped names
were handed to `add_typedef` / `add_macro`. -/
inductive RouteEvent where
  | typedefE (name : String)
  | macroE (name : String)

/-- The `obj` of a declaration as `add_typedef` receives it.  A macro
value arriving at `convert_type` is no recognized node kind, i.e. the
final `else` (`unknown`). -/
def DeclObj.asType : DeclObj → CType
  | .ctype t => t
  | .macroVal _ => .unknown

/-- Python's `str.startswith(prefix)` over the underlying character
sequence (Lean's built-in `String.startsWith` is not kernel-reducible,
so the embedding uses the character list directly). -/
def startswith (s p : String) : Bool :=
  p.data.isPrefixOf s.data

/-- The declaration loop of `CTypeSpace.configure_types(self)`:
`for name, (obj, quals) in self.ctx._declarations.iteritems():` — skip
when `obj in self.ctx._included_declarations`, skip when
`name in self._handled`, else `self._handled.add(name)` and route by
prefix: `'typedef '` → `add_typedef(name[8:], obj, quals)`, `'macro '` →
`add_macro(name[6:], obj)` (other names are only marked handled).
Returns the mutated space and the routing trace. -/
def process_decls (fuel : Nat) (env : StructEnv) (st : CTS) :
    List Decl → Except (Err × CTS) (CTS × List RouteEvent)
  | [] => .ok (st, [])
  | d :: ds =>
    if d.included then process_decls fuel env st ds
    else if d.name ∈ st.handled then process_decls fuel env st ds
    else
      let st0 : CTS := { st with handled := d.name :: st.handled }
      if startswith d.name "typedef " then
        match add_typedef fuel env st0 (d.name.drop 8) d.obj.asType d.quals with
        | .error e => .error e
        | .ok (_, st1) =>
          match process_decls fuel env st1 ds with
          | .error e => .error e
          | .ok (st2, evs) => .ok (st2, .typedefE (d.name.drop 8) :: evs)
      else if startswith d.name "macro " then
        match add_macro st0 (d.name.drop 6) d.obj with
        | .error e => .error e
        | .ok (_, st1) =>
          match process_decls fuel env st1 ds with
          | .error e => .error e
          | .ok (st2, evs) => .ok (st2, .macroE (d.name.drop 6) :: evs)
      else process_decls fuel env st0 ds

/-- `CTypeSpace.configure_types(self)`: run the declaration loop; then
`if not self._config_entries: return`; else invoke the platform-probe
oracle `rffi_platform.configure_entries(list(self._config_entries), eci)`
once with the whole pending batch, run the backfill loop, and
`self._config_entries.clear()`.  Besides the routing trace it returns the
list of batches passed to the oracle (so "invoked at most once" is a
statement about a value).  A probe failure propagates. -/
def configure_types (fuel : Nat) (env : StructEnv)
    (oracle : List ConfigEntry → Except Unit (List Layout)) (st : CTS)
    (ds : List Decl) :
    Except (Err × CTS) (CTS × List RouteEvent × List (List ConfigEntry)) :=
  match process_decls fuel env st ds with
  | .error e => .error e
  | .ok (st1, tr) =>
    if st1.config_entries.isEmpty then .ok (st1, tr, [])
    else
      match oracle st1.config_entries with
      | .error _ => .error (.probeError, st1)
      | .ok layouts =>
        match backfill st1 (st1.config_entries.zip layouts) with
        | .error e => .error e
        | .ok (_, st2) => .ok ({ st2 with config_entries := [] }, tr, [st1.config_entries])

/-- `CTypeSpace._real_gettype(self, cdecl)`:
`obj = self.ctx.parse_type(cdecl); result = self.convert_type(obj)`; a
`DelayedStruct` result is unwrapped to its `.TYPE`.  The `frontend`
parameter embeds the external `parse_type`, and the returned `Nat` counts
how many times it was invoked. -/
def real_gettype (fuel : Nat) (env : StructEnv)
    (frontend : String → Except Err CType) (st : CTS) (cdecl : String) :
    Except (Err × CTS) (LLType × CTS × Nat) :=
  match frontend cdecl with
  | .error e => .error (e, st)
  | .ok obj =>
    match convert_type fuel env st obj 0 with
    | .error e => .error e
    | .ok (result, st1) =>
      match result with
      | .delayedStruct id => .ok (.forwardRef id, st1, 1)
      | t => .ok (t, st1, 1)

/-- `CTypeSpace.gettype(self, cdecl)`: return
`self._cdecl_type_cache[cdecl]` on a hit (zero frontend invocations);
on a `KeyError` miss, `result = self._real_gettype(cdecl);
self._cdecl_type_cache[cdecl] = result; return result`. -/
def gettype (fuel : Nat) (env : StructEnv)
    (frontend : String → Except Err CType) (st : CTS) (cdecl : String) :
    Except (Err × CTS) (LLType × CTS × Nat) :=
  match alist_find st.cdecl_cache cdecl with
  | some t => .ok (t, st, 0)
  | none =>
    match real_gettype fuel env frontend st cdecl with
    | .error e => .error e
    | .ok (r, st1, n) =>
      .ok (r, { st1 with cdecl_cache := (cdecl, r) :: st1.cdecl_cache }, n)

end Cparser

namespace Cparser

/-- Relation between two `CTypeSpace` states under which a finished
lowering can be replayed: `st'` preserves every struct-cache binding of
`st` (within `convert_type`/`new_struct` bindings are only ever added,
for keys not yet present), and preserves absence of cache entries for
`_IO_FILE`-named struct nodes (`new_struct` never caches those). -/
def GoodRel (env : StructEnv) (st st' : CTS) : Prop :=
  (∀ id v, alist_find st.structs id = some v → alist_find st'.structs id = some v) ∧
  (∀ id, (env id).name = "_IO_FILE" → alist_find st.structs id = none →
      alist_find st'.structs id = none)

/-- How a state can evolve across one `convert_type`/`new_struct` run:
the struct cache evolves along `GoodRel` and every other table of the
space is untouched (the lowering algorithm only mutates `structs` and
the `DelayedStruct` heap `dstructs`). -/
def ConvEvolves (env : StructEnv) (st st' : CTS) : Prop :=
  GoodRel env st st' ∧
  st'.definitions = st.definitions ∧ st'.macros = st.macros ∧
  st'.config_entries = st.config_entries ∧ st'.handled = st.handled ∧
  st'.cdecl_cache = st.cdecl_cache ∧ st'.resolved = st.resolved

end Cparser

/-- C10: SubBuffer length is always non-negative: for a `SubBuffer` whose
underlying buffer reports a non-negative length, `getlength()` returns
`size` when `0 ≤ size ≤ remaining` (with `remaining` the underlying
length minus the offset), else `remaining` when `remaining ≥ 0`, else
`0` — hence the assertion `res >= 0` in `Buffer.__len__` holds for
`SubBuffer`. -/
theorem c10_subbuffer_length_nonneg (buf : Rbuf.Buffer) (off sz : Int) (ro : Bool)
    (h : 0 ≤ buf.getlength) :
    0 ≤ (Rbuf.Buffer.sub buf off sz ro).getlength ∧
    (0 ≤ sz ∧ sz ≤ buf.getlength - off →
        (Rbuf.Buffer.sub buf off sz ro).getlength = sz) ∧
    (¬ (0 ≤ sz ∧ sz ≤ buf.getlength - off) → 0 ≤ buf.getlength - off →
        (Rbuf.Buffer.sub buf off sz ro).getlength = buf.getlength - off) ∧
    (buf.getlength - off < 0 → (Rbuf.Buffer.sub buf off sz ro).getlength = 0) ∧
    (Rbuf.Buffer.sub buf off sz ro).pyLen
      = some ((Rbuf.Buffer.sub buf off sz ro).getlength) := by
  have h0 : 0 ≤ (Rbuf.Buffer.sub buf off sz ro).getlength := by
    simp only [Rbuf.Buffer.getlength]
    split_ifs <;> omega
  refine ⟨h0, ?_, ?_, ?_, ?_⟩
  · intro hs
    simp only [Rbuf.Buffer.getlength]
    split_ifs <;> omega
  · intro hs hr
    simp only [Rbuf.Buffer.getlength]
    split_ifs <;> omega
  · intro hr
    simp only [Rbuf.Buffer.getlength]
    split_ifs <;> omega
  · simp only [Rbuf.Buffer.pyLen]
    rw [if_pos h0]

/-- Witness for C10: a 5-byte base buffer viewed through a
`SubBuffer(buf, 1, 2)`. -/
theorem c10_subbuffer_length_nonneg_witness :
    0 ≤ (Rbuf.Buffer.base ⟨5, fun _ => 'a', false, fun _ _ => 0⟩).getlength ∧
    0 ≤ (Rbuf.Buffer.sub (.base ⟨5, fun _ => 'a', false, fun _ _ => 0⟩) 1 2
          false).getlength :=
  ⟨by decide,
   (c10_subbuffer_length_nonneg (.base ⟨5, fun _ => 'a', false, fun _ _ => 0⟩)
      1 2 false (by decide)).1⟩

/-- C9: Read-only write rejection: for every `RawBuffer` or `GCBuffer`
whose `readonly` flag is set, `typed_write(TP, byte_offset, value)`
raises `CannotWrite` before performing any store operation, so the
buffer contents (the carried memory) are unchanged on this error path. -/
theorem c9_readonly_write_rejection (castPrim : String → Int → Int)
    (rb : Rbuf.RawBufData) (gb : Rbuf.GCBufData) (mem : Rbuf.Mem)
    (TP : String) (byte_offset value : Int)
    (hr : rb.readonly = true) (hg : gb.readonly = true) :
    Rbuf.RawBuffer.typed_write castPrim rb mem TP byte_offset value
      = .error (.cannotWrite, mem) ∧
    Rbuf.GCBuffer.typed_write castPrim gb mem TP byte_offset value
      = .error (.cannotWrite, mem) := by
  constructor
  · simp [Rbuf.RawBuffer.typed_write, hr]
  · simp [Rbuf.GCBuffer.typed_write, hg]

/-- Witness for C9: a concrete read-only raw buffer and GC buffer. -/
theorem c9_readonly_write_rejection_witness :
    (Rbuf.RawBufData.mk true 0).readonly = true ∧
    (Rbuf.GCBufData.mk true 0 0).readonly = true ∧
    Rbuf.RawBuffer.typed_write (fun _ v => v) ⟨true, 0⟩ (fun _ => 0) "int" 3 42
      = .error (.cannotWrite, fun _ => 0) :=
  ⟨rfl, rfl,
   (c9_readonly_write_rejection (fun _ v => v) ⟨true, 0⟩ ⟨true, 0, 0⟩
      (fun _ => 0) "int" 3 42 rfl rfl).1⟩

/-- C8: SubBuffer flattening equivalence: `SubBuffer(inner, offset,
size)` over an inner `SubBuffer` stores inner's underlying non-SubBuffer
with offset `inner.offset + offset` and size clamped to inner's
remaining length and to 0 from below; the flattened view agrees with the
naive nested view on `getitem` and `typed_read` everywhere, and on
`getlength` whenever the geometry is non-negative. -/
theorem c8_subbuffer_flattening (b : Rbuf.BaseBuf) (ioff isize off size : Int)
    (iro : Bool) :
    (Rbuf.mkSubBuffer (.sub (.base b) ioff isize iro) off size
      = .sub (.base b) (off + ioff)
          (if size > (Rbuf.Buffer.sub (.base b) ioff isize iro).getlength - off
              ∨ size < 0
           then (if (Rbuf.Buffer.sub (.base b) ioff isize iro).getlength - off < 0
                 then 0
                 else (Rbuf.Buffer.sub (.base b) ioff isize iro).getlength - off)
           else size) iro) ∧
    (∀ i, (Rbuf.mkSubBuffer (.sub (.base b) ioff isize iro) off size).getitem i
        = (Rbuf.Buffer.sub (.sub (.base b) ioff isize iro) off size iro).getitem i) ∧
    (∀ TP o, (Rbuf.mkSubBuffer (.sub (.base b) ioff isize iro) off size).typed_read TP o
        = (Rbuf.Buffer.sub (.sub (.base b) ioff isize iro) off size iro).typed_read TP o) ∧
    (0 ≤ b.len → 0 ≤ ioff → 0 ≤ off →
      (Rbuf.mkSubBuffer (.sub (.base b) ioff isize iro) off size).getlength
        = (Rbuf.Buffer.sub (.sub (.base b) ioff isize iro) off size iro).getlength) := by
  refine ⟨rfl, ?_, ?_, ?_⟩
  · intro i
    show b.get ((off + ioff) + i) = b.get (ioff + (off + i))
    congr 1
    ring
  · intro TP o
    show b.tread TP (o + (off + ioff)) = b.tread TP ((o + off) + ioff)
    congr 1
    ring
  · intro h1 h2 h3
    simp only [Rbuf.mkSubBuffer, Rbuf.Buffer.getlength, Rbuf.Buffer.readonly]
    split_ifs <;> omega

/-- Witness for C8: a 10-byte base, inner view at offset 2 size 5, outer
view at offset 1 size 7 (clamped). -/
theorem c8_subbuffer_flattening_witness :
    0 ≤ (Rbuf.BaseBuf.mk 10 (fun _ => 'a') false (fun _ _ => 0)).len ∧
    (0 : Int) ≤ 2 ∧ (0 : Int) ≤ 1 ∧
    (Rbuf.mkSubBuffer
        (.sub (.base ⟨10, fun _ => 'a', false, fun _ _ => 0⟩) 2 5 false) 1 7).getlength
      = (Rbuf.Buffer.sub
          (.sub (.base ⟨10, fun _ => 'a', false, fun _ _ => 0⟩) 2 5 false) 1 7
          false).getlength :=
  ⟨by decide, by decide, by decide,
   (c8_subbuffer_flattening ⟨10, fun _ => 'a', false, fun _ _ => 0⟩ 2 5 1 7
      false).2.2.2 (by decide) (by decide) (by decide)⟩

/-- C3: Redefinition rejection with atomicity — two independent
statements over arbitrary (and possibly different) spaces: for any name
already present in `definitions`, `add_typedef(name, obj, quals)` fails
with the `assert`'s `AssertionError` and the escaping state is exactly
the entry state (existing binding and all other tables untouched); and
for any name already present in `macros`, `add_macro(name, value)`
fails the same way without mutation. -/
theorem c3_redefinition_rejection (fuel : Nat) (env : Cparser.StructEnv)
    (st stm : Cparser.CTS) (name namem : String) (obj : Cparser.CType)
    (quals : Nat) (value : Cparser.DeclObj) :
    ((Cparser.alist_find st.definitions name).isSome = true →
        Cparser.add_typedef fuel env st name obj quals
          = .error (.assertionError, st)) ∧
    ((Cparser.alist_find stm.macros namem).isSome = true →
        Cparser.add_macro stm namem value = .error (.assertionError, stm)) := by
  constructor
  · intro hd
    simp [Cparser.add_typedef, hd]
  · intro hm
    simp [ Cparser.add_macro, hm]

/-- Witness for C3: a space binding `"foo"` only as a typedef (its
macro table empty), and a second space binding `"bar"` only as a macro
(its typedef table empty) — the two canonical single-table
redefinitions. -/
theorem c3_redefinition_rejection_witness :
    (Cparser.alist_find
        (Cparser.CTS.mk [("foo", .void)] [] [] [] [] [] [] []).definitions
        "foo").isSome = true ∧
    (Cparser.alist_find
        (Cparser.CTS.mk [] [("bar", .macroVal 0)] [] [] [] [] [] []).macros
        "bar").isSome = true ∧
    Cparser.add_typedef 3 (fun _ => ⟨"s", [], none⟩)
        ⟨[("foo", .void)], [], [], [], [], [], [], []⟩ "foo" .void 0
      = .error (.assertionError,
          ⟨[("foo", .void)], [], [], [], [], [], [], []⟩) ∧
    Cparser.add_macro ⟨[], [("bar", .macroVal 0)], [], [], [], [], [], []⟩
        "bar" (.macroVal 1)
      = .error (.assertionError,
          ⟨[], [("bar", .macroVal 0)], [], [], [], [], [], []⟩) :=
  ⟨by simp [Cparser.alist_find], by simp [Cparser.alist_find],
   (c3_redefinition_rejection 3 (fun _ => ⟨"s", [], none⟩)
      ⟨[("foo", .void)], [], [], [], [], [], [], []⟩
      ⟨[], [("bar", .macroVal 0)], [], [], [], [], [], []⟩
      "foo" "bar" .void 0 (.macroVal 1)).1 (by simp [Cparser.alist_find]),
   (c3_redefinition_rejection 3 (fun _ => ⟨"s", [], none⟩)
      ⟨[("foo", .void)], [], [], [], [], [], [], []⟩
      ⟨[], [("bar", .macroVal 0)], [], [], [], [], [], []⟩
      "foo" "bar" .void 0 (.macroVal 1)).2 (by simp [Cparser.alist_find])⟩

/-- C4: Variadic rejection: lowering a `FunctionPtrType` node with
`ellipsis` set fails with `NotImplementedError` raised before any
parameter or result type is lowered — the escaping state is exactly the
entry state, and no signature is ever produced. -/
theorem c4_variadic_rejection (fuel : Nat) (env : Cparser.StructEnv)
    (st : Cparser.CTS) (args : List Cparser.CType) (result : Cparser.CType)
    (quals : Nat) :
    Cparser.convert_type (fuel + 1) env st (.funcPtr true args result) quals
      = .error (.notImplementedError, st) := by
  simp [Cparser.convert_type]

/-- C6: Const-pointer distinction: a pointer node with a scalar pointee
lowers, when its qualifiers carry `Q_CONST`, to a pointer to a read-only
(`render_as_const`) no-length array of the pointee, and otherwise to a
plain mutable no-length array pointer; consequently
`gettype("const char *")` and `gettype("char *")` yield descriptors that
differ exactly in the mutability flag while agreeing on the `char`
element type and the unknown (no-length) extent. -/
theorem c6_const_pointer (fuel : Nat) (env : Cparser.StructEnv)
    (st : Cparser.CTS) (q qz : Nat)
    (frontend : String → Except Cparser.Err Cparser.CType)
    (hq : Nat.land q Cparser.Q_CONST ≠ 0) (hqz : Nat.land qz Cparser.Q_CONST = 0)
    (hc : frontend "const char *" = .ok (.pointer Cparser.Q_CONST (.prim "char")))
    (hp : frontend "char *" = .ok (.pointer 0 (.prim "char")))
    (h1 : Cparser.alist_find st.cdecl_cache "const char *" = none)
    (h2 : Cparser.alist_find st.cdecl_cache "char *" = none) :
    Cparser.convert_type (fuel + 2) env st (.pointer q (.prim "char")) 0
      = .ok (.ptr (.arrayNoLength (.prim "char") true), st) ∧
    Cparser.convert_type (fuel + 2) env st (.pointer qz (.prim "char")) 0
      = .ok (.ptr (.arrayNoLength (.prim "char") false), st) ∧
    Cparser.gettype (fuel + 2) env frontend st "const char *"
      = .ok (.ptr (.arrayNoLength (.prim "char") true),
             { st with cdecl_cache :=
                 ("const char *", .ptr (.arrayNoLength (.prim "char") true))
                   :: st.cdecl_cache }, 1) ∧
    Cparser.gettype (fuel + 2) env frontend st "char *"
      = .ok (.ptr (.arrayNoLength (.prim "char") false),
             { st with cdecl_cache :=
                 ("char *", .ptr (.arrayNoLength (.prim "char") false))
                   :: st.cdecl_cache }, 1) := by
  refine ⟨?_, ?_, ?_, ?_⟩
  · simp [Cparser.convert_type, Cparser.cname_to_lltype, Cparser.alist_find,
          Cparser.CNAME_TO_LLTYPE, Cparser.pointer_conv, Cparser.LLType.isContainer,
          hq]
  · simp [Cparser.convert_type, Cparser.cname_to_lltype, Cparser.alist_find,
          Cparser.CNAME_TO_LLTYPE, Cparser.pointer_conv, Cparser.LLType.isContainer,
          hqz]
  · simp [Cparser.gettype, Cparser.real_gettype, h1, hc,
          Cparser.convert_type, Cparser.cname_to_lltype, Cparser.alist_find,
          Cparser.CNAME_TO_LLTYPE, Cparser.pointer_conv, Cparser.LLType.isContainer,
          Cparser.Q_CONST, (by decide : Nat.land 1 1 ≠ 0)]
  · simp [Cparser.gettype, Cparser.real_gettype, h2, hp,
          Cparser.convert_type, Cparser.cname_to_lltype, Cparser.alist_find,
          Cparser.CNAME_TO_LLTYPE, Cparser.pointer_conv, Cparser.LLType.isContainer,
          Cparser.Q_CONST, (by decide : Nat.land 0 1 = 0)]

/-- Witness for C6: the empty space with a two-entry frontend. -/
theorem c6_const_pointer_witness :
    Nat.land 1 Cparser.Q_CONST ≠ 0 ∧ Nat.land 0 Cparser.Q_CONST = 0 ∧
    Cparser.convert_type 5 (fun _ => ⟨"s", [], none⟩) Cparser.emptyCTS
        (.pointer 1 (.prim "char")) 0
      = .ok (.ptr (.arrayNoLength (.prim "char") true), Cparser.emptyCTS) :=
  ⟨by decide, by decide,
   (c6_const_pointer 3 (fun _ => ⟨"s", [], none⟩) Cparser.emptyCTS 1 0
      (fun s => if s = "const char *" then .ok (.pointer Cparser.Q_CONST (.prim "char"))
                else if s = "char *" then .ok (.pointer 0 (.prim "char"))
                else .error .keyError)
      (by decide) (by decide) (by simp) (by simp)
      (by simp [Cparser.emptyCTS, Cparser.alist_find])
      (by simp [Cparser.emptyCTS, Cparser.alist_find])).1⟩

/-- C1: Cycle safety of struct lowering: for a struct node whose fields
include a pointer to itself among its fields — directly (an `int`
field plus a self pointer), or through a second struct that points back — `convert_type` terminates (returns `.ok` at the stated
finite recursion budget, for every larger budget `fuel + k`), and the
final state holds exactly one `DelayedStruct` placeholder per distinct
struct node, because `new_struct` caches the placeholder *before*
lowering any field, so the re-entrant lookup returns the in-progress
placeholder; every self/mutual pointer field is lowered to
`lltype.Ptr` of the very forward-reference handle (`forwardRef`) of the
placeholder it points back to. -/
theorem c1_cycle_safety (fuel : Nat) (a b : Nat)
    (nm fx fn nma nmb fya fa fb : String) (q qa qb : Nat)
    (hab : a ≠ b) (hnm : nm ≠ "_IO_FILE")
    (hna : nma ≠ "_IO_FILE") (hnb : nmb ≠ "_IO_FILE") :
    Cparser.convert_type (fuel + 7)
        (fun _ => ⟨nm, [fx, fn], some [.prim "int", .pointer q (.structT a)]⟩)
        Cparser.emptyCTS (.structT a) 0
      = .ok (.delayedStruct a,
             { Cparser.emptyCTS with
                 structs := [(a, .delayedStruct a)],
                 dstructs := [(a, ⟨nm, none,
                   some [(fx, .prim "int"), (fn, .ptr (.forwardRef a))]⟩)] }) ∧
    Cparser.convert_type (fuel + 12)
        (fun i => if i = b then ⟨nmb, [fb], some [.pointer qb (.structT a)]⟩
                  else ⟨nma, [fya, fa],
                        some [.prim "int", .pointer qa (.structT b)]⟩)
        Cparser.emptyCTS (.structT a) 0
      = .ok (.delayedStruct a,
             { Cparser.emptyCTS with
                 structs := [(b, .delayedStruct b), (a, .delayedStruct a)],
                 dstructs := [(b, ⟨nmb, none, some [(fb, .ptr (.forwardRef a))]⟩),
                              (a, ⟨nma, none,
                                some [(fya, .prim "int"),
                                      (fa, .ptr (.forwardRef b))]⟩)] }) := by
  constructor
  · simp [Cparser.convert_type, Cparser.new_struct, Cparser.convert_fields,
          Cparser.convert_field, Cparser.alist_find, Cparser.setFields,
          Cparser.pointer_conv, Cparser.LLType.isContainer, Cparser.emptyCTS,
          Cparser.cname_to_lltype, Cparser.CNAME_TO_LLTYPE, hnm]
  · simp [Cparser.convert_type, Cparser.new_struct, Cparser.convert_fields,
          Cparser.convert_field, Cparser.alist_find, Cparser.setFields,
          Cparser.pointer_conv, Cparser.LLType.isContainer, Cparser.emptyCTS,
          Cparser.cname_to_lltype, Cparser.CNAME_TO_LLTYPE,
          hab, Ne.symm hab, hna, hnb]

/-- Witness for C1: the direct self-referential struct
`node` holding an `int` field `x` and a self pointer `next`, at node
identity 0. -/
theorem c1_cycle_safety_witness :
    (0 : Nat) ≠ 1 ∧ "node" ≠ "_IO_FILE" ∧
    Cparser.convert_type 7
        (fun _ => ⟨"node", ["x", "next"],
                   some [.prim "int", .pointer 0 (.structT 0)]⟩)
        Cparser.emptyCTS (.structT 0) 0
      = .ok (.delayedStruct 0,
             { Cparser.emptyCTS with
                 structs := [(0, .delayedStruct 0)],
                 dstructs := [(0, ⟨"node", none,
                   some [("x", .prim "int"),
                         ("next", .ptr (.forwardRef 0))]⟩)] }) :=
  ⟨by decide, by decide,
   (c1_cycle_safety 0 0 1 "node" "x" "next" "s" "t" "y" "f" "g" 0 0 0
      (by decide) (by decide) (by decide) (by decide)).1⟩

namespace Cparser

theorem convEvolves_refl (env : StructEnv) (st : CTS) : ConvEvolves env st st :=
  ⟨⟨fun _ _ h => h, fun _ _ h => h⟩, rfl, rfl, rfl, rfl, rfl, rfl⟩

theorem convEvolves_trans {env : StructEnv} {s1 s2 s3 : CTS}
    (h12 : ConvEvolves env s1 s2) (h23 : ConvEvolves env s2 s3) :
    ConvEvolves env s1 s3 := by
  obtain ⟨⟨g1, g2⟩, d, m, c, hh, cc, r⟩ := h12
  obtain ⟨⟨g1', g2'⟩, d', m', c', hh', cc', r'⟩ := h23
  exact ⟨⟨fun id v h => g1' id v (g1 id v h), fun id hn h => g2' id hn (g2 id hn h)⟩,
         d'.trans d, m'.trans m, c'.trans c, hh'.trans hh, cc'.trans cc, r'.trans r⟩

theorem convEvolves_insert (env : StructEnv) (st : CTS) (id : Nat) (dd : DelayedData)
    (h : alist_find st.structs id = none) (hn : ¬ (env id).name = "_IO_FILE") :
    ConvEvolves env st
      { st with structs := (id, .delayedStruct id) :: st.structs,
                dstructs := (id, dd) :: st.dstructs } := by
  refine ⟨⟨?_, ?_⟩, rfl, rfl, rfl, rfl, rfl, rfl⟩
  · intro k v hk
    simp only [alist_find]
    by_cases hik : id = k
    · subst hik; rw [h] at hk; exact absurd hk (by simp)
    · rw [if_neg hik]; exact hk
  · intro k hkn hk
    simp only [alist_find]
    by_cases hik : id = k
    · subst hik; exact absurd hkn hn
    · rw [if_neg hik]; exact hk

theorem convEvolves_dstructs (env : StructEnv) (st : CTS)
    (l : List (Nat × DelayedData)) : ConvEvolves env st { st with dstructs := l } :=
  ⟨⟨fun _ _ h => h, fun _ _ h => h⟩, rfl, rfl, rfl, rfl, rfl, rfl⟩

set_option maxHeartbeats 1000000 in
theorem conv_evolves_all : ∀ fuel : Nat,
    (∀ env st obj quals r st', convert_type fuel env st obj quals = .ok (r, st') →
        ConvEvolves env st st') ∧
    (∀ env st id r st', alist_find st.structs id = none →
        new_struct fuel env st id = .ok (r, st') → ConvEvolves env st st') ∧
    (∀ env st o r st', convert_field fuel env st o = .ok (r, st') →
        ConvEvolves env st st') ∧
    (∀ env st os r st', convert_fields fuel env st os = .ok (r, st') →
        ConvEvolves env st st') ∧
    (∀ env st os r st', convert_args fuel env st os = .ok (r, st') →
        ConvEvolves env st st') := by
  intro fuel
  induction fuel with
  | zero =>
      refine ⟨?_, ?_, ?_, ?_, ?_⟩
      · intro env st obj quals r st' h; simp [convert_type] at h
      · intro env st id r st' hm h; simp [new_struct] at h
      · intro env st o r st' h; simp [convert_field] at h
      · intro env st os r st' h
        cases os with
        | nil =>
            simp only [convert_fields, Except.ok.injEq, Prod.mk.injEq] at h
            obtain ⟨-, h2⟩ := h; subst h2; exact convEvolves_refl env st
        | cons o os => simp [convert_fields] at h
      · intro env st os r st' h
        cases os with
        | nil =>
            simp only [convert_args, Except.ok.injEq, Prod.mk.injEq] at h
            obtain ⟨-, h2⟩ := h; subst h2; exact convEvolves_refl env st
        | cons o os => simp [convert_args] at h
  | succ f ih =>
      obtain ⟨ihc, ihn, ihf, ihfs, ihas⟩ := ih
      refine ⟨?_, ?_, ?_, ?_, ?_⟩
      · -- convert_type at f + 1
        intro env st obj quals r st' h
        cases obj with
        | defined q rt =>
            simp only [convert_type] at h
            exact ihc env st rt q r st' h
        | prim name =>
            simp only [convert_type] at h
            split at h
            · simp only [Except.ok.injEq, Prod.mk.injEq] at h
              obtain ⟨-, h2⟩ := h; subst h2; exact convEvolves_refl env st
            · simp at h
        | structT id =>
            simp only [convert_type] at h
            split at h
            · simp only [Except.ok.injEq, Prod.mk.injEq] at h
              obtain ⟨-, h2⟩ := h; subst h2; exact convEvolves_refl env st
            · rename_i heq
              exact ihn env st id r st' heq h
        | pointer pq totype =>
            simp only [convert_type] at h
            split at h
            · simp at h
            · rename_i TO st1 heq
              have h1 := ihc env st totype 0 TO st1 heq
              split at h <;>
                (simp only [Except.ok.injEq, Prod.mk.injEq] at h;
                 obtain ⟨-, h2⟩ := h; subst h2; exact h1)
        | funcPtr ell args result =>
            simp only [convert_type] at h
            cases ell with
            | true => simp at h
            | false =>
                rw [if_neg (by simp : ¬ (false = true))] at h
                split at h
                · simp at h
                · rename_i largs st1 heq
                  have h1 := ihas env st args largs st1 heq
                  split at h
                  · simp at h
                  · rename_i lres st2 heq2
                    have h2 := ihc env st1 result 0 lres st2 heq2
                    simp only [Except.ok.injEq, Prod.mk.injEq] at h
                    obtain ⟨-, h3⟩ := h; subst h3
                    exact convEvolves_trans h1 h2
        | void =>
            simp only [convert_type, Except.ok.injEq, Prod.mk.injEq] at h
            obtain ⟨-, h2⟩ := h; subst h2; exact convEvolves_refl env st
        | array item length =>
            simp only [convert_type] at h
            split at h
            · simp at h
            · rename_i litem st1 heq
              have h1 := ihc env st item 0 litem st1 heq
              simp only [Except.ok.injEq, Prod.mk.injEq] at h
              obtain ⟨-, h2⟩ := h; subst h2; exact h1
        | unknown => simp [convert_type] at h
      · -- new_struct at f + 1
        intro env st id r st' hm h
        simp only [new_struct] at h
        by_cases hn : (env id).name = "_IO_FILE"
        · rw [if_pos hn] at h
          split at h
          · simp only [Except.ok.injEq, Prod.mk.injEq] at h
            obtain ⟨-, h2⟩ := h; subst h2; exact convEvolves_refl env st
          · simp at h
        · rw [if_neg hn] at h
          split at h
          · -- fldtypes = none
            simp only [Except.ok.injEq, Prod.mk.injEq] at h
            obtain ⟨-, h2⟩ := h; subst h2
            exact convEvolves_insert env st id _ hm hn
          · -- fldtypes = some ftys
            rename_i ftys heq
            split at h
            · simp at h
            · rename_i ltys st2 heq2
              have h0 := convEvolves_insert env st id ⟨(env id).name, none, none⟩ hm hn
              have h1 := ihfs env _ ftys ltys st2 heq2
              simp only [Except.ok.injEq, Prod.mk.injEq] at h
              obtain ⟨-, h3⟩ := h; subst h3
              exact convEvolves_trans (convEvolves_trans h0 h1)
                (convEvolves_dstructs env st2 _)
      · -- convert_field at f + 1
        intro env st o r st' h
        simp only [convert_field] at h
        split at h
        · simp at h
        · rename_i tp st1 heq
          have h1 := ihc env st o 0 tp st1 heq
          split at h <;>
            (simp only [Except.ok.injEq, Prod.mk.injEq] at h;
             obtain ⟨-, h2⟩ := h; subst h2; exact h1)
      · -- convert_fields at f + 1
        intro env st os r st' h
        cases os with
        | nil =>
            simp only [convert_fields, Except.ok.injEq, Prod.mk.injEq] at h
            obtain ⟨-, h2⟩ := h; subst h2; exact convEvolves_refl env st
        | cons o os =>
            simp only [convert_fields] at h
            split at h
            · simp at h
            · rename_i t st1 heq
              have h1 := ihf env st o t st1 heq
              split at h
              · simp at h
              · rename_i ts st2 heq2
                have h2 := ihfs env st1 os ts st2 heq2
                simp only [Except.ok.injEq, Prod.mk.injEq] at h
                obtain ⟨-, h3⟩ := h; subst h3
                exact convEvolves_trans h1 h2
      · -- convert_args at f + 1
        intro env st os r st' h
        cases os with
        | nil =>
            simp only [convert_args, Except.ok.injEq, Prod.mk.injEq] at h
            obtain ⟨-, h2⟩ := h; subst h2; exact convEvolves_refl env st
        | cons o os =>
            simp only [convert_args] at h
            split at h
            · simp at h
            · rename_i t st1 heq
              have h1 := ihc env st o 0 t st1 heq
              split at h
              · simp at h
              · rename_i ts st2 heq2
                have h2 := ihas env st1 os ts st2 heq2
                simp only [Except.ok.injEq, Prod.mk.injEq] at h
                obtain ⟨-, h3⟩ := h; subst h3
                exact convEvolves_trans h1 h2

end Cparser

namespace Cparser

theorem goodRel_trans {env : StructEnv} {s1 s2 s3 : CTS}
    (h12 : GoodRel env s1 s2) (h23 : GoodRel env s2 s3) : GoodRel env s1 s3 :=
  ⟨fun id v h => h23.1 id v (h12.1 id v h),
   fun id hn h => h23.2 id hn (h12.2 id hn h)⟩

theorem cname_FILE : cname_to_lltype "FILE" = some LLType.filetype := by
  simp [cname_to_lltype, CNAME_TO_LLTYPE, alist_find]

theorem new_struct_result (fuel : Nat) (env : StructEnv) (st : CTS) (id : Nat)
    (r : LLType) (st' : CTS) (hm : alist_find st.structs id = none)
    (hn : ¬ (env id).name = "_IO_FILE")
    (h : new_struct fuel env st id = .ok (r, st')) :
    r = .delayedStruct id ∧ alist_find st'.structs id = some (.delayedStruct id) := by
  cases fuel with
  | zero => simp [new_struct] at h
  | succ f =>
    simp only [new_struct] at h
    rw [if_neg hn] at h
    split at h
    · simp only [Except.ok.injEq, Prod.mk.injEq] at h
      obtain ⟨h1, h2⟩ := h; subst h2
      refine ⟨h1.symm, ?_⟩
      simp [alist_find]
    · rename_i ftys heq
      split at h
      · simp at h
      · rename_i ltys st2 heq2
        simp only [Except.ok.injEq, Prod.mk.injEq] at h
        obtain ⟨h1, h2⟩ := h; subst h2
        refine ⟨h1.symm, ?_⟩
        have hev := (conv_evolves_all f).2.2.2.1 env _ ftys ltys st2 heq2
        exact hev.1.1 id _ (by simp [alist_find])

set_option maxHeartbeats 1000000 in
theorem conv_replay_all : ∀ fuel : Nat,
    (∀ env st obj quals r st1 st2, convert_type fuel env st obj quals = .ok (r, st1) →
        GoodRel env st1 st2 → convert_type fuel env st2 obj quals = .ok (r, st2)) ∧
    (∀ env st o r st1 st2, convert_field fuel env st o = .ok (r, st1) →
        GoodRel env st1 st2 → convert_field fuel env st2 o = .ok (r, st2)) ∧
    (∀ env st os r st1 st2, convert_fields fuel env st os = .ok (r, st1) →
        GoodRel env st1 st2 → convert_fields fuel env st2 os = .ok (r, st2)) ∧
    (∀ env st os r st1 st2, convert_args fuel env st os = .ok (r, st1) →
        GoodRel env st1 st2 → convert_args fuel env st2 os = .ok (r, st2)) := by
  intro fuel
  induction fuel with
  | zero =>
      refine ⟨?_, ?_, ?_, ?_⟩
      · intro env st obj quals r st1 st2 h hgr; simp [convert_type] at h
      · intro env st o r st1 st2 h hgr; simp [convert_field] at h
      · intro env st os r st1 st2 h hgr
        cases os with
        | nil =>
            simp only [convert_fields, Except.ok.injEq, Prod.mk.injEq] at h
            obtain ⟨h1, h2⟩ := h; subst h1; subst h2
            simp [convert_fields]
        | cons o os => simp [convert_fields] at h
      · intro env st os r st1 st2 h hgr
        cases os with
        | nil =>
            simp only [convert_args, Except.ok.injEq, Prod.mk.injEq] at h
            obtain ⟨h1, h2⟩ := h; subst h1; subst h2
            simp [convert_args]
        | cons o os => simp [convert_args] at h
  | succ f ih =>
      obtain ⟨ihcR, ihfR, ihfsR, ihasR⟩ := ih
      refine ⟨?_, ?_, ?_, ?_⟩
      · -- convert_type replay at f + 1
        intro env st obj quals r st1 st2 h hgr
        cases obj with
        | defined q rt =>
            simp only [convert_type] at h ⊢
            exact ihcR env st rt q r st1 st2 h hgr
        | prim name =>
            simp only [convert_type] at h ⊢
            split at h
            · rename_i t heq
              simp only [Except.ok.injEq, Prod.mk.injEq] at h
              obtain ⟨h1, h2⟩ := h; subst h1; subst h2
              rfl
            · simp at h
        | structT id =>
            simp only [convert_type] at h ⊢
            split at h
            · rename_i v heq
              simp only [Except.ok.injEq, Prod.mk.injEq] at h
              obtain ⟨h1, h2⟩ := h; subst h1; subst h2
              rw [hgr.1 id v heq]
            · rename_i heq
              by_cases hn : (env id).name = "_IO_FILE"
              · cases f with
                | zero => simp [new_struct] at h
                | succ g =>
                    simp only [new_struct] at h
                    rw [if_pos hn, cname_FILE] at h
                    simp only [Except.ok.injEq, Prod.mk.injEq] at h
                    obtain ⟨h1, h2⟩ := h; subst h1; subst h2
                    rw [hgr.2 id hn heq]
                    simp only [new_struct]
                    rw [if_pos hn, cname_FILE]
              · obtain ⟨hr, hl⟩ := new_struct_result f env st id r st1 heq hn h
                subst hr
                rw [hgr.1 id _ hl]
        | pointer pq totype =>
            simp only [convert_type] at h ⊢
            split at h
            · simp at h
            · rename_i TO s1 heq
              cases TO <;>
                (simp only [Except.ok.injEq, Prod.mk.injEq] at h;
                 obtain ⟨h1, h2⟩ := h; subst h1; subst h2;
                 rw [ihcR env st totype 0 _ _ st2 heq hgr])
        | funcPtr ell args result =>
            cases ell with
            | true => simp only [convert_type] at h; simp at h
            | false =>
                simp only [convert_type] at h ⊢
                rw [if_neg (by simp : ¬ (false = true))] at h ⊢
                split at h
                · simp at h
                · rename_i largs s1 heq
                  split at h
                  · simp at h
                  · rename_i lres s2 heq2
                    simp only [Except.ok.injEq, Prod.mk.injEq] at h
                    obtain ⟨h1, h2⟩ := h; subst h1; subst h2
                    have g12 : GoodRel env s1 s2 :=
                      ((conv_evolves_all f).1 env s1 result 0 _ _ heq2).1
                    have g1t : GoodRel env s1 st2 := goodRel_trans g12 hgr
                    simp only [ihasR env st args largs s1 st2 heq g1t,
                               ihcR env s1 result 0 lres s2 st2 heq2 hgr]
        | void =>
            simp only [convert_type] at h ⊢
            simp only [Except.ok.injEq, Prod.mk.injEq] at h
            obtain ⟨h1, h2⟩ := h; subst h1; subst h2
            rfl
        | array item length =>
            simp only [convert_type] at h ⊢
            split at h
            · simp at h
            · rename_i litem s1 heq
              simp only [Except.ok.injEq, Prod.mk.injEq] at h
              obtain ⟨h1, h2⟩ := h; subst h1; subst h2
              rw [ihcR env st item 0 _ _ st2 heq hgr]
        | unknown => simp [convert_type] at h
      · -- convert_field replay at f + 1
        intro env st o r st1 st2 h hgr
        simp only [convert_field] at h ⊢
        split at h
        · simp at h
        · rename_i tp s1 heq
          cases tp <;>
            (simp only [Except.ok.injEq, Prod.mk.injEq] at h;
             obtain ⟨h1, h2⟩ := h; subst h1; subst h2;
             rw [ihcR env st o 0 _ _ st2 heq hgr])
      · -- convert_fields replay at f + 1
        intro env st os r st1 st2 h hgr
        cases os with
        | nil =>
            simp only [convert_fields, Except.ok.injEq, Prod.mk.injEq] at h
            obtain ⟨h1, h2⟩ := h; subst h1; subst h2
            simp [convert_fields]
        | cons o os =>
            simp only [convert_fields] at h ⊢
            split at h
            · simp at h
            · rename_i t s1 heq
              split at h
              · simp at h
              · rename_i ts s2 heq2
                simp only [Except.ok.injEq, Prod.mk.injEq] at h
                obtain ⟨h1, h2⟩ := h; subst h1; subst h2
                have g12 : GoodRel env s1 s2 :=
                  ((conv_evolves_all f).2.2.2.1 env s1 os _ _ heq2).1
                have g1t : GoodRel env s1 st2 := goodRel_trans g12 hgr
                simp only [ihfR env st o t s1 st2 heq g1t,
                           ihfsR env s1 os ts s2 st2 heq2 hgr]
      · -- convert_args replay at f + 1
        intro env st os r st1 st2 h hgr
        cases os with
        | nil =>
            simp only [convert_args, Except.ok.injEq, Prod.mk.injEq] at h
            obtain ⟨h1, h2⟩ := h; subst h1; subst h2
            simp [convert_args]
        | cons o os =>
            simp only [convert_args] at h ⊢
            split at h
            · simp at h
            · rename_i t s1 heq
              split at h
              · simp at h
              · rename_i ts s2 heq2
                simp only [Except.ok.injEq, Prod.mk.injEq] at h
                obtain ⟨h1, h2⟩ := h; subst h1; subst h2
                have g12 : GoodRel env s1 s2 :=
                  ((conv_evolves_all f).2.2.2.2 env s1 os _ _ heq2).1
                have g1t : GoodRel env s1 st2 := goodRel_trans g12 hgr
                simp only [ihcR env st o 0 t s1 st2 heq g1t,
                           ihasR env s1 os ts s2 st2 heq2 hgr]

end Cparser

namespace Cparser

theorem goodRel_cdecl (env : StructEnv) (s1 : CTS) (l : List (String × LLType)) :
    GoodRel env s1 { s1 with cdecl_cache := l } :=
  ⟨fun _ _ hx => hx, fun _ _ hx => hx⟩

theorem real_gettype_replay (fuel : Nat) (env : StructEnv)
    (frontend : String → Except Err CType) (st : CTS) (cdecl : String)
    (r : LLType) (st1 : CTS) (n : Nat)
    (h : real_gettype fuel env frontend st cdecl = .ok (r, st1, n))
    (st2 : CTS) (hgr : GoodRel env st1 st2) :
    n = 1 ∧ real_gettype fuel env frontend st2 cdecl = .ok (r, st2, 1) := by
  simp only [real_gettype] at h ⊢
  split at h
  · simp at h
  · rename_i obj hfront
    split at h
    · simp at h
    · rename_i res s1 hconv
      cases res <;>
        (simp only [Except.ok.injEq, Prod.mk.injEq] at h;
         obtain ⟨e1, e2, e3⟩ := h; subst e1; subst e2; subst e3;
         exact ⟨rfl,
           by simp [hfront, (conv_replay_all fuel).1 env st obj 0 _ s1 st2 hconv hgr]⟩)

end Cparser

/-- C5: Idempotent declaration-cache memoization: after a cache-miss
`gettype(s)` has computed and cached a descriptor, every subsequent
`gettype(s)` on the resulting space returns the identical descriptor
handle with zero `parse_type` invocations and an unchanged space; and
re-running `_real_gettype(s)` afresh (as after clearing the declaration
cache) yields the same observable descriptor and state, so the cache
affects only cost. -/
theorem c5_gettype_memoization (fuel : Nat) (env : Cparser.StructEnv)
    (frontend : String → Except Cparser.Err Cparser.CType) (st : Cparser.CTS)
    (cdecl : String) (r : Cparser.LLType) (st' : Cparser.CTS) (n : Nat)
    (hmiss : Cparser.alist_find st.cdecl_cache cdecl = none)
    (h : Cparser.gettype fuel env frontend st cdecl = .ok (r, st', n)) :
    n = 1 ∧
    Cparser.alist_find st'.cdecl_cache cdecl = some r ∧
    Cparser.gettype fuel env frontend st' cdecl = .ok (r, st', 0) ∧
    Cparser.real_gettype fuel env frontend st' cdecl = .ok (r, st', 1) := by
  simp only [Cparser.gettype, hmiss] at h
  split at h
  · simp at h
  · rename_i r1 st1 n1 heq
    simp only [Except.ok.injEq, Prod.mk.injEq] at h
    obtain ⟨h1, h2, h3⟩ := h
    subst h1; subst h2; subst h3
    obtain ⟨hn1, hrgr⟩ := Cparser.real_gettype_replay fuel env frontend st cdecl
      r1 st1 n1 heq { st1 with cdecl_cache := (cdecl, r1) :: st1.cdecl_cache }
      (Cparser.goodRel_cdecl env st1 ((cdecl, r1) :: st1.cdecl_cache))
    exact ⟨hn1, by simp [Cparser.alist_find],
           by simp [Cparser.gettype, Cparser.alist_find], hrgr⟩

/-- Witness for C5: the empty space, a one-entry frontend mapping
`"char"` to the primitive `char` node. -/
theorem c5_gettype_memoization_witness :
    Cparser.alist_find (Cparser.emptyCTS).cdecl_cache "char" = none ∧
    Cparser.gettype 1 (fun _ => ⟨"s", [], none⟩)
        (fun _ => .ok (.prim "char")) Cparser.emptyCTS "char"
      = .ok (.prim "char",
             { Cparser.emptyCTS with cdecl_cache := [("char", .prim "char")] }, 1) ∧
    Cparser.gettype 1 (fun _ => ⟨"s", [], none⟩)
        (fun _ => .ok (.prim "char"))
        { Cparser.emptyCTS with cdecl_cache := [("char", .prim "char")] } "char"
      = .ok (.prim "char",
             { Cparser.emptyCTS with cdecl_cache := [("char", .prim "char")] }, 0) :=
  ⟨by simp [Cparser.alist_find, Cparser.emptyCTS],
   by simp [Cparser.gettype, Cparser.real_gettype, Cparser.convert_type,
            Cparser.cname_to_lltype, Cparser.CNAME_TO_LLTYPE, Cparser.alist_find,
            Cparser.emptyCTS],
   (c5_gettype_memoization 1 (fun _ => ⟨"s", [], none⟩)
      (fun _ => .ok (.prim "char")) Cparser.emptyCTS "char" (.prim "char")
      { Cparser.emptyCTS with cdecl_cache := [("char", .prim "char")] } 1
      (by simp [Cparser.alist_find, Cparser.emptyCTS])
      (by simp [Cparser.gettype, Cparser.real_gettype, Cparser.convert_type,
                Cparser.cname_to_lltype, Cparser.CNAME_TO_LLTYPE, Cparser.alist_find,
                Cparser.emptyCTS])).2.2.1⟩

namespace Cparser

theorem realize_struct_handled (st : CTS) (id : Nat) (TY : LLType) (st' : CTS)
    (h : realize_struct st id = .ok (TY, st')) : st'.handled = st.handled := by
  simp only [realize_struct] at h
  split at h
  · simp at h
  · rename_i d hd
    split at h
    · simp at h
    · simp only [Except.ok.injEq, Prod.mk.injEq] at h
      obtain ⟨-, h2⟩ := h; subst h2; rfl

theorem add_typedef_handled (fuel : Nat) (env : StructEnv) (st : CTS)
    (name : String) (obj : CType) (quals : Nat) (u : Unit) (st' : CTS)
    (h : add_typedef fuel env st name obj quals = .ok (u, st')) :
    st'.handled = st.handled := by
  simp only [add_typedef] at h
  split at h
  · simp at h
  · split at h
    · simp at h
    · rename_i tp st1 hconv
      have h1 : st1.handled = st.handled :=
        ((conv_evolves_all fuel).1 env st obj quals tp st1 hconv).2.2.2.2.1
      split at h
      · -- tp = delayedStruct id
        rename_i id
        split at h
        · simp at h
        · rename_i TY st3 hreal
          have h3 := realize_struct_handled _ id TY st3 hreal
          simp only [Except.ok.injEq, Prod.mk.injEq] at h
          obtain ⟨-, h2⟩ := h; subst h2
          show (match realtypeStructId obj with
                | some sid => { st3 with structs := (sid, TY) :: st3.structs }
                | none => st3).handled = st.handled
          split
          · show st3.handled = st.handled
            rw [h3]
            split
            · split
              · show st1.handled = st.handled; exact h1
              · exact h1
            · exact h1
          · show st3.handled = st.handled
            rw [h3]
            split
            · split
              · show st1.handled = st.handled; exact h1
              · exact h1
            · exact h1
      · -- tp not a DelayedStruct
        simp only [Except.ok.injEq, Prod.mk.injEq] at h
        obtain ⟨-, h2⟩ := h; subst h2
        exact h1

theorem add_macro_handled (st : CTS) (name : String) (value : DeclObj)
    (u : Unit) (st' : CTS) (h : add_macro st name value = .ok (u, st')) :
    st'.handled = st.handled := by
  simp only [ add_macro] at h
  split at h
  · simp at h
  · simp only [Except.ok.injEq, Prod.mk.injEq] at h
    obtain ⟨-, h2⟩ := h; subst h2; rfl

end Cparser

namespace Cparser

theorem backfill_frame : ∀ (pairs : List (ConfigEntry × Layout)) (st st' : CTS)
    (u : Unit), backfill st pairs = .ok (u, st') →
    st'.definitions = st.definitions ∧ st'.macros = st.macros ∧
    st'.structs = st.structs ∧ st'.dstructs = st.dstructs ∧
    st'.config_entries = st.config_entries ∧ st'.handled = st.handled ∧
    st'.cdecl_cache = st.cdecl_cache := by
  intro pairs
  induction pairs with
  | nil =>
      intro st st' u h
      simp only [backfill, Except.ok.injEq, Prod.mk.injEq] at h
      obtain ⟨-, h2⟩ := h; subst h2
      exact ⟨rfl, rfl, rfl, rfl, rfl, rfl, rfl⟩
  | cons p rest ih =>
      intro st st' u h
      obtain ⟨e, ly⟩ := p
      simp only [backfill] at h
      split at h
      · simp at h
      · rename_i u1 st1 hbec
        have hrest := ih st1 st' u h
        simp only [become] at hbec
        split at hbec
        · simp at hbec
        · simp only [Except.ok.injEq, Prod.mk.injEq] at hbec
          obtain ⟨-, h2⟩ := hbec; subst h2
          exact hrest

theorem process_decls_handled (fuel : Nat) (env : StructEnv) :
    ∀ (ds : List Decl) (st st2 : CTS) (evs : List RouteEvent),
      process_decls fuel env st ds = .ok (st2, evs) →
      (∀ s, s ∈ st.handled → s ∈ st2.handled) ∧
      (∀ d ∈ ds, d.included = false → d.name ∈ st2.handled) := by
  intro ds
  induction ds with
  | nil =>
      intro st st2 evs h
      simp only [process_decls, Except.ok.injEq, Prod.mk.injEq] at h
      obtain ⟨h1, -⟩ := h; subst h1
      exact ⟨fun s hs => hs, by simp⟩
  | cons d ds ih =>
      intro st st2 evs h
      simp only [process_decls] at h
      by_cases hinc : d.included = true
      · rw [if_pos hinc] at h
        obtain ⟨mono, rest⟩ := ih st st2 evs h
        refine ⟨mono, ?_⟩
        intro d' hd' hninc
        rcases List.mem_cons.mp hd' with hh | ht
        · rw [hh] at hninc; rw [hninc] at hinc; exact absurd hinc (by simp)
        · exact rest d' ht hninc
      · rw [if_neg hinc] at h
        by_cases hmem : d.name ∈ st.handled
        · rw [if_pos hmem] at h
          obtain ⟨mono, rest⟩ := ih st st2 evs h
          refine ⟨mono, ?_⟩
          intro d' hd' hninc
          rcases List.mem_cons.mp hd' with hh | ht
          · rw [hh]; exact mono d.name hmem
          · exact rest d' ht hninc
        · rw [if_neg hmem] at h
          by_cases ht : startswith d.name "typedef " = true
          · rw [if_pos ht] at h
            split at h
            · simp at h
            · rename_i u1 st1 hadd
              split at h
              · simp at h
              · rename_i stx evsx hproc
                simp only [Except.ok.injEq, Prod.mk.injEq] at h
                obtain ⟨h1, -⟩ := h; subst h1
                have ha : st1.handled = d.name :: st.handled :=
                  add_typedef_handled fuel env _ _ _ _ u1 st1 hadd
                obtain ⟨mono, rest⟩ := ih st1 stx evsx hproc
                have mono' : ∀ s, s ∈ d.name :: st.handled → s ∈ stx.handled :=
                  fun s hs => mono s (by rw [ha]; exact hs)
                refine ⟨fun s hs => mono' s (List.mem_cons_of_mem _ hs), ?_⟩
                intro d' hd' hninc
                rcases List.mem_cons.mp hd' with hh | htl
                · rw [hh]; exact mono' d.name (List.mem_cons_self _ _)
                · exact rest d' htl hninc
          · rw [if_neg ht] at h
            by_cases hmc : startswith d.name "macro " = true
            · rw [if_pos hmc] at h
              split at h
              · simp at h
              · rename_i u1 st1 hadd
                split at h
                · simp at h
                · rename_i stx evsx hproc
                  simp only [Except.ok.injEq, Prod.mk.injEq] at h
                  obtain ⟨h1, -⟩ := h; subst h1
                  have ha : st1.handled = d.name :: st.handled :=
                    add_macro_handled _ _ _ u1 st1 hadd
                  obtain ⟨mono, rest⟩ := ih st1 stx evsx hproc
                  have mono' : ∀ s, s ∈ d.name :: st.handled → s ∈ stx.handled :=
                    fun s hs => mono s (by rw [ha]; exact hs)
                  refine ⟨fun s hs => mono' s (List.mem_cons_of_mem _ hs), ?_⟩
                  intro d' hd' hninc
                  rcases List.mem_cons.mp hd' with hh | htl
                  · rw [hh]; exact mono' d.name (List.mem_cons_self _ _)
                  · exact rest d' htl hninc
            · rw [if_neg hmc] at h
              obtain ⟨mono, rest⟩ := ih _ st2 evs h
              have mono' : ∀ s, s ∈ d.name :: st.handled → s ∈ st2.handled :=
                fun s hs => mono s hs
              refine ⟨fun s hs => mono' s (List.mem_cons_of_mem _ hs), ?_⟩
              intro d' hd' hninc
              rcases List.mem_cons.mp hd' with hh | htl
              · rw [hh]; exact mono' d.name (List.mem_cons_self _ _)
              · exact rest d' htl hninc

theorem process_decls_skip (fuel : Nat) (env : StructEnv) :
    ∀ (ds : List Decl) (st : CTS),
      (∀ d ∈ ds, d.included = true ∨ d.name ∈ st.handled) →
      process_decls fuel env st ds = .ok (st, []) := by
  intro ds
  induction ds with
  | nil => intro st _; rfl
  | cons d ds ih =>
      intro st h
      simp only [process_decls]
      by_cases hinc : d.included = true
      · rw [if_pos hinc]
        exact ih st (fun d' hd' => h d' (List.mem_cons_of_mem _ hd'))
      · have hmem : d.name ∈ st.handled := by
          rcases h d (List.mem_cons_self _ _) with hx | hx
          · exact absurd hx hinc
          · exact hx
        rw [if_neg hinc, if_pos hmem]
        exact ih st (fun d' hd' => h d' (List.mem_cons_of_mem _ hd'))

end Cparser

/-- C7: Configuration-pass idempotence: declarations already handled in
a prior pass are skipped (by their identity, the `_declarations` key
added to `_handled`), as are declarations from an already-merged unit;
hence a second `configure_types` over the same declarations routes
nothing into `add_typedef`/`add_macro` (empty routing trace, no oracle
batch, state unchanged), and a pass over only-included declarations is a
no-op. -/
theorem c7_configure_idempotent (fuel : Nat) (env : Cparser.StructEnv)
    (oracle : List Cparser.ConfigEntry → Except Unit (List Cparser.Layout))
    (st : Cparser.CTS) (ds : List Cparser.Decl) (st' : Cparser.CTS)
    (tr : List Cparser.RouteEvent) (bs : List (List Cparser.ConfigEntry))
    (h : Cparser.configure_types fuel env oracle st ds = .ok (st', tr, bs)) :
    Cparser.configure_types fuel env oracle st' ds = .ok (st', [], []) ∧
    (∀ (st0 : Cparser.CTS) (ds0 : List Cparser.Decl),
        (∀ d ∈ ds0, d.included = true) →
        Cparser.process_decls fuel env st0 ds0 = .ok (st0, [])) := by
  refine ⟨?_, fun st0 ds0 hall =>
    Cparser.process_decls_skip fuel env ds0 st0 (fun d hd => Or.inl (hall d hd))⟩
  simp only [Cparser.configure_types] at h
  split at h
  · simp at h
  · rename_i st1 tr1 hproc
    have hhand := Cparser.process_decls_handled fuel env ds st st1 tr1 hproc
    by_cases he : st1.config_entries.isEmpty = true
    · rw [if_pos he] at h
      simp only [Except.ok.injEq, Prod.mk.injEq] at h
      obtain ⟨h1, -, -⟩ := h
      subst h1
      have hskip := Cparser.process_decls_skip fuel env ds st1
        (fun d hd => by
          by_cases hinc : d.included = true
          · exact Or.inl hinc
          · exact Or.inr (hhand.2 d hd (by simpa using hinc)))
      simp only [Cparser.configure_types, hskip]
      rw [if_pos he]
    · rw [if_neg he] at h
      split at h
      · simp at h
      · rename_i layouts horacle
        split at h
        · simp at h
        · rename_i u stb hback
          simp only [Except.ok.injEq, Prod.mk.injEq] at h
          obtain ⟨h1, -, -⟩ := h
          have hbf := Cparser.backfill_frame _ st1 stb u hback
          have hh' : st'.handled = st1.handled := by
            rw [← h1]; exact hbf.2.2.2.2.2.1
          have hce : st'.config_entries = [] := by rw [← h1]
          have hskip := Cparser.process_decls_skip fuel env ds st'
            (fun d hd => by
              by_cases hinc : d.included = true
              · exact Or.inl hinc
              · exact Or.inr (by rw [hh']; exact hhand.2 d hd (by simpa using hinc)))
          simp only [Cparser.configure_types, hskip]
          rw [hce]
          simp

/-- Witness for C7: a configuration pass over no declarations on the
empty space. -/
theorem c7_configure_idempotent_witness :
    Cparser.configure_types 1 (fun _ => ⟨"s", [], none⟩) (fun _ => .error ())
        Cparser.emptyCTS [] = .ok (Cparser.emptyCTS, [], []) ∧
    Cparser.configure_types 1 (fun _ => ⟨"s", [], none⟩) (fun _ => .error ())
        Cparser.emptyCTS [] = .ok (Cparser.emptyCTS, [], []) :=
  ⟨by simp [Cparser.configure_types, Cparser.process_decls, Cparser.emptyCTS],
   (c7_configure_idempotent 1 (fun _ => ⟨"s", [], none⟩) (fun _ => .error ())
      Cparser.emptyCTS [] Cparser.emptyCTS [] []
      (by simp [Cparser.configure_types, Cparser.process_decls,
                Cparser.emptyCTS])).1⟩

namespace Cparser

theorem backfill_resolved : ∀ (pairs : List (ConfigEntry × Layout)) (st st' : CTS)
    (u : Unit), backfill st pairs = .ok (u, st') →
    (∀ p ∈ pairs, alist_find st.resolved p.1.tyid = none) ∧
    (∀ p ∈ pairs, alist_find st'.resolved p.1.tyid = some p.2) ∧
    (∀ p ∈ pairs, (st'.resolved.map Prod.fst).count p.1.tyid
        = (st.resolved.map Prod.fst).count p.1.tyid + 1) ∧
    (∀ id, id ∉ pairs.map (fun p => p.1.tyid) →
        alist_find st'.resolved id = alist_find st.resolved id ∧
        (st'.resolved.map Prod.fst).count id
          = (st.resolved.map Prod.fst).count id) := by
  intro pairs
  induction pairs with
  | nil =>
      intro st st' u h
      simp only [backfill, Except.ok.injEq, Prod.mk.injEq] at h
      obtain ⟨-, h2⟩ := h; subst h2
      exact ⟨by simp, by simp, by simp, fun id _ => ⟨rfl, rfl⟩⟩
  | cons p rest ih =>
      intro st st' u h
      obtain ⟨e, ly⟩ := p
      simp only [backfill] at h
      split at h
      · simp at h
      · rename_i u1 st1 hbec
        simp only [become] at hbec
        split at hbec
        · simp at hbec
        · rename_i hnotsome
          simp only [Except.ok.injEq, Prod.mk.injEq] at hbec
          obtain ⟨-, h2⟩ := hbec; subst h2
          have hnone : alist_find st.resolved e.tyid = none :=
            Option.not_isSome_iff_eq_none.mp (by simpa using hnotsome)
          obtain ⟨P1, P2, P3, P4⟩ := ih _ st' u1 h
          have hlook1 : alist_find
              ((e.tyid, ly) :: st.resolved) e.tyid = some ly := by
            simp [alist_find]
          have hne : e.tyid ∉ rest.map (fun p => p.1.tyid) := by
            intro hmem
            obtain ⟨q, hq, hqe⟩ := List.mem_map.mp hmem
            have := P1 q hq
            rw [hqe] at this
            rw [show (({ st with resolved := (e.tyid, ly) :: st.resolved } : CTS)).resolved
                  = (e.tyid, ly) :: st.resolved from rfl] at this
            rw [hlook1] at this
            exact absurd this (by simp)
          refine ⟨?_, ?_, ?_, ?_⟩
          · intro q hq
            rcases List.mem_cons.mp hq with hh | htl
            · rw [hh]; exact hnone
            · have := P1 q htl
              have hqe : ¬ e.tyid = q.1.tyid := by
                intro hcon
                exact hne (List.mem_map.mpr ⟨q, htl, hcon.symm⟩)
              simpa [alist_find, hqe] using this
          · intro q hq
            rcases List.mem_cons.mp hq with hh | htl
            · rw [hh]
              have := (P4 e.tyid hne).1
              rw [this]
              simpa [alist_find] using hlook1
            · exact P2 q htl
          · intro q hq
            rcases List.mem_cons.mp hq with hh | htl
            · rw [hh]
              have := (P4 e.tyid hne).2
              rw [this]
              simp [List.count_cons]
            · have h3 := P3 q htl
              have hqe : ¬ (e.tyid = q.1.tyid) := by
                intro hcon
                exact hne (List.mem_map.mpr ⟨q, htl, hcon.symm⟩)
              rw [h3]
              have : ((( { st with resolved := (e.tyid, ly) :: st.resolved } : CTS)).resolved.map
                  Prod.fst).count q.1.tyid
                  = (st.resolved.map Prod.fst).count q.1.tyid := by
                simp [List.count_cons, hqe]
              rw [this]
          · intro id hid
            have hidne : ¬ (id = e.tyid) := by
              intro hcon; exact hid (by simp [hcon])
            have hidrest : id ∉ rest.map (fun p => p.1.tyid) := by
              intro hcon; exact hid (by simp [hcon])
            obtain ⟨q1, q2⟩ := P4 id hidrest
            have hetid : ¬ (e.tyid = id) := fun hx => hidne hx.symm
            constructor
            · rw [q1]
              simp [alist_find, hetid]
            · rw [q2]
              simp [List.count_cons, hetid]

end Cparser

/-- C2: Batched probe protocol: within one `configure_types` call the
platform-probe oracle is invoked at most once — not at all when no
layout requests are pending after the declaration loop — and when it is
invoked, it receives all pending requests in one batch; each pending
placeholder's forward reference is backfilled exactly once (it was
unresolved before, resolved with the corresponding batch result after,
its resolution count rising from 0 to 1), and `_config_entries` is
cleared afterwards. -/
theorem c2_batched_probe (fuel : Nat) (env : Cparser.StructEnv)
    (oracle : List Cparser.ConfigEntry → Except Unit (List Cparser.Layout))
    (st : Cparser.CTS) (ds : List Cparser.Decl) (st' : Cparser.CTS)
    (tr : List Cparser.RouteEvent) (bs : List (List Cparser.ConfigEntry))
    (h : Cparser.configure_types fuel env oracle st ds = .ok (st', tr, bs)) :
    bs.length ≤ 1 ∧
    ∃ st1, Cparser.process_decls fuel env st ds = .ok (st1, tr) ∧
      (st1.config_entries = [] → bs = [] ∧ st' = st1) ∧
      (st1.config_entries ≠ [] →
        bs = [st1.config_entries] ∧
        st'.config_entries = [] ∧
        ∃ layouts, oracle st1.config_entries = .ok layouts ∧
          ∀ p ∈ st1.config_entries.zip layouts,
            Cparser.alist_find st1.resolved p.1.tyid = none ∧
            Cparser.alist_find st'.resolved p.1.tyid = some p.2 ∧
            (st'.resolved.map Prod.fst).count p.1.tyid
              = (st1.resolved.map Prod.fst).count p.1.tyid + 1) := by
  simp only [Cparser.configure_types] at h
  split at h
  · simp at h
  · rename_i st1 tr1 hproc
    by_cases he : st1.config_entries.isEmpty = true
    · rw [if_pos he] at h
      simp only [Except.ok.injEq, Prod.mk.injEq] at h
      obtain ⟨h1, h2, h3⟩ := h
      subst h1; subst h2; subst h3
      exact ⟨by simp, st1, hproc, fun _ => ⟨rfl, rfl⟩,
             fun hne => absurd (by simpa using he) hne⟩
    · rw [if_neg he] at h
      split at h
      · simp at h
      · rename_i layouts horacle
        split at h
        · simp at h
        · rename_i u stb hback
          simp only [Except.ok.injEq, Prod.mk.injEq] at h
          obtain ⟨h1, h2, h3⟩ := h
          subst h2; subst h3
          have hres := Cparser.backfill_resolved _ st1 stb u hback
          have hne : st1.config_entries ≠ [] := by
            intro hx; rw [hx] at he; simp at he
          refine ⟨by simp, st1, hproc, fun hx => absurd hx hne,
                  fun _ => ⟨rfl, ?_, layouts, horacle, ?_⟩⟩
          · rw [← h1]
          · intro p hp
            have h1r : st'.resolved = stb.resolved := by rw [← h1]
            exact ⟨hres.1 p hp, by rw [h1r]; exact hres.2.1 p hp,
                   by rw [h1r]; exact hres.2.2.1 p hp⟩

/-- Witness for C2: one typedef of `struct foo { int x; }` named `Foo`;
the probe batch holds exactly the one pending request and its forward
reference ends up resolved with the returned layout. -/
theorem c2_batched_probe_witness :
    Cparser.configure_types 6 (fun _ => ⟨"foo", ["x"], some [.prim "int"]⟩)
        (fun _ => .ok [⟨4, 4, [("x", 0)]⟩]) Cparser.emptyCTS
        [⟨"typedef Foo", .ctype (.defined 0 (.structT 0)), 0, false⟩]
      = .ok (⟨[("Foo", .forwardRef 0)], [],
              [(0, .forwardRef 0), (0, .delayedStruct 0)],
              [(0, ⟨"foo", some "Foo", some [("x", .prim "int")]⟩)],
              [], ["typedef Foo"], [], [(0, ⟨4, 4, [("x", 0)]⟩)]⟩,
             [.typedefE "Foo"],
             [[⟨"Foo", some [("x", .prim "int")], 0⟩]]) ∧
    ([[(⟨"Foo", some [("x", .prim "int")], 0⟩ : Cparser.ConfigEntry)]]).length ≤ 1 := by
  have h : Cparser.configure_types 6 (fun _ => ⟨"foo", ["x"], some [.prim "int"]⟩)
      (fun _ => .ok [⟨4, 4, [("x", 0)]⟩]) Cparser.emptyCTS
      [⟨"typedef Foo", .ctype (.defined 0 (.structT 0)), 0, false⟩]
      = .ok (⟨[("Foo", .forwardRef 0)], [],
              [(0, .forwardRef 0), (0, .delayedStruct 0)],
              [(0, ⟨"foo", some "Foo", some [("x", .prim "int")]⟩)],
              [], ["typedef Foo"], [], [(0, ⟨4, 4, [("x", 0)]⟩)]⟩,
             [.typedefE "Foo"],
             [[⟨"Foo", some [("x", .prim "int")], 0⟩]]) := by
    have hs2 : "typedef Foo".drop 8 = "Foo" := by decide
    simp [hs2, Cparser.startswith, Cparser.configure_types, Cparser.process_decls, Cparser.add_typedef,
          Cparser.DeclObj.asType,
          Cparser.convert_type, Cparser.new_struct, Cparser.convert_fields,
          Cparser.convert_field, Cparser.cname_to_lltype, Cparser.CNAME_TO_LLTYPE,
          Cparser.alist_find, Cparser.setFields, Cparser.setTypeName,
          Cparser.realize_struct, Cparser.get_type_name, Cparser.realtypeStructId,
          Cparser.become, Cparser.backfill, Cparser.emptyCTS]
  exact ⟨h, (c2_batched_probe 6 (fun _ => ⟨"foo", ["x"], some [.prim "int"]⟩)
      (fun _ => .ok [⟨4, 4, [("x", 0)]⟩]) Cparser.emptyCTS
      [⟨"typedef Foo", .ctype (.defined 0 (.structT 0)), 0, false⟩] _ _ _ h).1⟩
